import Mathlib

/-!
# Verification of the wg-routes route-state reconciliation core

Shallow embedding of `src/wg-routes.py` (a macOS/Linux-VM Wireguard routing
switch).  Pure fragments of the Python source are translated into Lean
functions; the two external effects (running a command via `run_cmd`, and the
DNS lookup `socket.gethostbyname`) are modelled as explicit oracle parameters
(`exec : String → Int × List String`, `dns : String → Option String`).
Python exceptions (`NameError`, propagating `socket.gaierror`) are modelled
with `Except Err`.

Python `re` patterns used by the source are embedded at character level:
the fixed IPv4-ish pattern `(?:[0-2]?\d{1,2}\.){3}[0-2]?\d{1,2}` is embedded
with explicit backtracking candidate lists in Python's backtracking order;
addresses interpolated (unescaped) into patterns are embedded with `'.'`
acting as a single-character wildcard and all other characters literal, which
is exact for the address-shaped strings these fields hold.
-/

namespace WgRoutes

/-! ## Character classes (Python `re` ASCII classes) -/

/-- Python `\s` (ASCII): space, tab, newline, carriage return, vertical tab,
form feed. -/
def isSpaceC (c : Char) : Bool :=
  c = ' ' || c = '\t' || c = '\n' || c = '\r' || c = '\x0b' || c = '\x0c'

/-- Python `\d` (ASCII): the digits `'0'`–`'9'`. -/
def isDigitC (c : Char) : Bool :=
  decide (48 ≤ c.toNat) && decide (c.toNat ≤ 57)

/-- The regex character class `[0-2]`. -/
def is02 (c : Char) : Bool :=
  decide (48 ≤ c.toNat) && decide (c.toNat ≤ 50)

/-- Python `\w` (ASCII): letters, digits and underscore. -/
def isWordC (c : Char) : Bool :=
  c.isAlphanum || c = '_'

/-! ## Substring containment (Python `in` on strings) -/

/-- `strPrefixAt n h` : the list `n` is an initial segment of `h`. -/
def strPrefixAt : List Char → List Char → Bool
  | [], _ => true
  | _ :: _, [] => false
  | a :: as, b :: bs => a = b && strPrefixAt as bs

/-- Python `needle in hay` for strings: `needle` occurs contiguously in
`hay`. -/
def containsStr (needle hay : String) : Bool :=
  hay.data.tails.any (strPrefixAt needle.data)

/-- Python `c in s` for a single character. -/
def containsChar (s : String) (c : Char) : Bool :=
  s.data.any (fun a => a = c)

/-! ## The IPv4-ish pattern `(?:[0-2]?\d{1,2}\.){3}[0-2]?\d{1,2}`

Embedded as candidate lists: each function returns the `(consumed, rest)`
pairs the Python backtracking engine would try, in Python's order (optional
`[0-2]` taken before skipped, the greedy `\d{1,2}` trying two digits before
one). -/

/-- Candidates of one octet pattern `[0-2]?\d{1,2}` at the head of `cs`. -/
def octetOpts (cs : List Char) : List (List Char × List Char) :=
  match cs with
  | [] => []
  | c0 :: rest =>
    (match rest with
     | c1 :: c2 :: r2 =>
       (if is02 c0 && isDigitC c1 && isDigitC c2 then [([c0, c1, c2], r2)] else []) ++
       (if is02 c0 && isDigitC c1 then [([c0, c1], c2 :: r2)] else [])
     | [c1] => if is02 c0 && isDigitC c1 then [([c0, c1], [])] else []
     | [] => []) ++
    (match rest with
     | c1 :: r1 =>
       (if isDigitC c0 && isDigitC c1 then [([c0, c1], r1)] else []) ++
       (if isDigitC c0 then [([c0], c1 :: r1)] else [])
     | [] => if isDigitC c0 then [([c0], [])] else [])

/-- Candidates of `[0-2]?\d{1,2}\.` (an octet followed by a literal dot). -/
def octDotOpts (cs : List Char) : List (List Char × List Char) :=
  (octetOpts cs).flatMap (fun p =>
    match p.2 with
    | c :: r2 => if c = '.' then [(p.1 ++ ['.'], r2)] else []
    | [] => [])

/-- The shape of an octet-pattern match: one to three digit characters, a
three-character match starting with `'0'`–`'2'`. -/
def octetShape : List Char → Bool
  | [] => false
  | [a] => isDigitC a
  | [a, b] => isDigitC a && isDigitC b
  | [a, b, c] => is02 a && isDigitC b && isDigitC c
  | _ :: _ :: _ :: _ :: _ => false

/-- Candidates of the full pattern `(?:[0-2]?\d{1,2}\.){3}[0-2]?\d{1,2}`
at the head of `cs`, in Python's backtracking order. -/
def quadOpts (cs : List Char) : List (List Char × List Char) :=
  (octDotOpts cs).flatMap (fun a =>
    (octDotOpts a.2).flatMap (fun b =>
      (octDotOpts b.2).flatMap (fun c =>
        (octetOpts c.2).map (fun d => (a.1 ++ b.1 ++ c.1 ++ d.1, d.2)))))

/-- Python `re.search(ipv4pat, s) is not None`: the quad pattern matches at
some position of `s`. -/
def containsIPv4Pat (s : String) : Bool :=
  s.data.tails.any (fun t => !(quadOpts t).isEmpty)

/-! ## Errors raised by the source (`NameError` / propagating `gaierror`) -/

/-- The failure modes of the embedded fragment of `wg-routes.py`. -/
inductive Err
  /-- `resolve`: "[*] IPv6 coming soon...." -/
  | unsupportedProtocol
  /-- `resolve`: "[*] Could not resolve '%s' to an IP" (the `%s` is the
  looked-up result, a quirk of the source). -/
  | resolutionFailed (ip : String)
  /-- `socket.gethostbyname` raising `socket.gaierror`, which `resolve`
  does not catch. -/
  | dnsFailure (host : String)
  /-- `get_default_gw`: "[*] Could not parse default gateway ..." -/
  | gwNotFound
  /-- `get_default_gw`: "[*] Default gateway '%s' does not have the '%s'
  flag ..." — carries the gateway and the missing flag. -/
  | gwFlagMissing (gw : String) (flag : Char)
deriving DecidableEq

/-! ## Address resolution (`resolve`, lines 262–274)

`socket.gethostbyname` is modelled by the oracle `dns`; `dns host = none`
models the lookup raising `socket.gaierror` (uncaught by `resolve`). -/

/-- `resolve(host)`: reject anything containing a colon; return `host`
unchanged when the IPv4-ish pattern matches anywhere in it; otherwise look
the hostname up and pattern-check the result. -/
def resolve (dns : String → Option String) (host : String) : Except Err String :=
  if containsChar host ':' then .error .unsupportedProtocol
  else if containsIPv4Pat host then .ok host
  else
    match dns host with
    | none => .error (.dnsFailure host)
    | some ip =>
      if ip = "" || !containsIPv4Pat ip then .error (.resolutionFailed ip)
      else .ok ip

/-! ## Valid dotted quads (definition following the spec's words)

The spec speaks of "syntactically valid IPv4 dotted-quad strings".  The
following definitions render that phrase — four dot-separated runs of one
to three digits, each of numeric value at most 255 — to compare it with the
source's pattern check. -/

/-- Split a character list at every `'.'`. -/
def splitDots : List Char → List (List Char)
  | [] => [[]]
  | c :: r =>
    if c = '.' then [] :: splitDots r
    else
      match splitDots r with
      | h :: t => (c :: h) :: t
      | [] => [[c]]

/-- Join with `'.'`: left inverse of `splitDots`. -/
def joinDots : List (List Char) → List Char
  | [] => []
  | [x] => x
  | x :: xs => x ++ '.' :: joinDots xs

/-- Decimal value of a digit run. -/
def octetVal (cs : List Char) : Nat :=
  cs.foldl (fun a c => a * 10 + (c.toNat - 48)) 0

/-- A valid octet: one to three digits of value at most 255. -/
def isOctetStr (cs : List Char) : Bool :=
  decide (cs ≠ []) && decide (cs.length ≤ 3) && cs.all isDigitC &&
    decide (octetVal cs ≤ 255)

/-- Modelled from the spec: a syntactically valid IPv4 dotted-quad string,
four valid octets separated by dots. -/
def isValidDottedQuad (s : String) : Bool :=
  match splitDots s.data with
  | [a, b, c, d] => isOctetStr a && isOctetStr b && isOctetStr c && isOctetStr d
  | _ => false

/-! ## Directions and configuration -/

/-- The `rcmd` argument of `route_update`: the validated commands
`'up'` / `'down'` (the spec's Engage / Disengage). -/
inductive Direction
  | up
  | down
deriving DecidableEq

/-- The `conf` dictionary as consumed by `route_update` / `route_status`:
all three keys present (the source indexes them unconditionally). -/
structure Config where
  WG_CLIENT : String
  WG_SERVER : String
  DEFAULT_GW : String
deriving DecidableEq

/-! ## Transition planning (`route_update` lines 225–233) -/

/-- `update_cmd = 'add'; if rcmd == 'down': update_cmd = 'delete'`. -/
def update_cmd : Direction → String
  | .up => "add"
  | .down => "delete"

/-- The three command strings built by the `for cmd in [...]` loop of
`route_update`, in source order. -/
def route_cmds (rcmd : Direction) (conf : Config) : List String :=
  ["route " ++ update_cmd rcmd ++ " 0.0.0.0/1 " ++ conf.WG_CLIENT,
   "route " ++ update_cmd rcmd ++ " 128.0.0.0/1 " ++ conf.WG_CLIENT,
   "route " ++ update_cmd rcmd ++ " " ++ conf.WG_SERVER ++ " " ++ conf.DEFAULT_GW]

/-- The spec's `Add` / `Delete` mutation actions. -/
inductive Action
  | Add
  | Delete
deriving DecidableEq

/-- The spec's RouteSpec: a managed route, destination and gateway. -/
structure RouteSpec where
  dest : String
  gw : String
deriving DecidableEq

/-- The spec's MutationOp: an action applied to a route. -/
structure MutationOp where
  action : Action
  route : RouteSpec
deriving DecidableEq

/-- Direction to action: `up` adds, `down` deletes. -/
def directionAction : Direction → Action
  | .up => .Add
  | .down => .Delete

/-- The word the `route` tool uses for an action. -/
def actionWord : Action → String
  | .Add => "add"
  | .Delete => "delete"

/-- The spec's `plan`: the ordered mutation operations of a transition,
structured view of the three commands of `route_update`. -/
def plan (rcmd : Direction) (conf : Config) : List MutationOp :=
  [⟨directionAction rcmd, ⟨"0.0.0.0/1", conf.WG_CLIENT⟩⟩,
   ⟨directionAction rcmd, ⟨"128.0.0.0/1", conf.WG_CLIENT⟩⟩,
   ⟨directionAction rcmd, ⟨conf.WG_SERVER, conf.DEFAULT_GW⟩⟩]

/-- Rendering of a MutationOp as the command string `route_update` runs. -/
def cmdString (op : MutationOp) : String :=
  "route " ++ actionWord op.action ++ " " ++ op.route.dest ++ " " ++ op.route.gw

/-! ## Route table snapshot (`route_status`, lines 181–213)

The three patterns are `^\s*0\/1\s+CLIENT\s`, `^\s*128\.0\/1\s+CLIENT\s`
and `^\s*SERVER\s+GW\s`, where CLIENT / SERVER / GW are the configured
addresses interpolated unescaped: a `'.'` inside them is a regex wildcard.
All three are matched by `re.search` with a leading `^` and no multiline
flag, hence anchored at the start of the line. -/

/-- Python `str.rstrip()`: drop trailing whitespace. -/
def rstrip (s : String) : String :=
  String.mk ((s.data.reverse.dropWhile isSpaceC).reverse)

/-- `\s+` followed by a character class disjoint from `\s`: at least one
whitespace character, then skip the whole run. -/
def takeSpaces1 : List Char → Option (List Char)
  | c :: r => if isSpaceC c then some (r.dropWhile isSpaceC) else none
  | [] => none

/-- Match an interpolated address as a pattern: `'.'` matches any single
character, every other character matches itself. -/
def matchAddrPat : List Char → List Char → Option (List Char)
  | [], r => some r
  | _ :: _, [] => none
  | p :: ps, c :: r => if p = '.' || p = c then matchAddrPat ps r else none

/-- The common tail `\s+ADDR\s` of the three row patterns. -/
def afterDest (addr : String) (r : List Char) : Bool :=
  match takeSpaces1 r with
  | none => false
  | some r2 =>
    match matchAddrPat addr.data r2 with
    | some (c :: _) => isSpaceC c
    | _ => false

/-- `re.search("^\s*0\/1\s+%s\s" % WG_CLIENT, line)`. -/
def lineMatchH1 (client : String) (line : String) : Bool :=
  let r1 := line.data.dropWhile isSpaceC
  if strPrefixAt "0/1".data r1 then afterDest client (r1.drop 3) else false

/-- `re.search("^\s*128\.0\/1\s+%s\s" % WG_CLIENT, line)`. -/
def lineMatchH2 (client : String) (line : String) : Bool :=
  let r1 := line.data.dropWhile isSpaceC
  if strPrefixAt "128.0/1".data r1 then afterDest client (r1.drop 7) else false

/-- `re.search("^\s*%s\s+%s\s" % (WG_SERVER, DEFAULT_GW), line)`. -/
def lineMatchGW (server gw : String) (line : String) : Bool :=
  let r1 := line.data.dropWhile isSpaceC
  match matchAddrPat server.data r1 with
  | some r2 => afterDest gw r2
  | none => false

/-- The result of the `route_status` scan: the three remembered rows
(`False` in Python becomes `none`). -/
structure Snapshot where
  found_h1 : Option String
  found_h2 : Option String
  found_gw : Option String
deriving DecidableEq

/-- One iteration of the `route_status` loop: an `if/elif/elif` chain that
overwrites the matching slot with the current (rstripped) line. -/
def statusStep (conf : Config) (s : Snapshot) (line : String) : Snapshot :=
  if lineMatchH1 conf.WG_CLIENT line then { s with found_h1 := some (rstrip line) }
  else if lineMatchH2 conf.WG_CLIENT line then { s with found_h2 := some (rstrip line) }
  else if lineMatchGW conf.WG_SERVER conf.DEFAULT_GW line then
    { s with found_gw := some (rstrip line) }
  else s

/-- `route_status` over the captured `netstat -rn` output lines. -/
def route_status (conf : Config) (lines : List String) : Snapshot :=
  lines.foldl (statusStep conf) ⟨none, none, none⟩

/-! ## Outcome classification (`route_update` lines 235–258, `run_cmd` 318) -/

/-- The spec's classification of a command outcome. -/
inductive Outcome
  /-- direction `up`, marker `'File exists'` found in the output. -/
  | AlreadyPresent
  /-- direction `down`, marker `'not in table'` found in the output. -/
  | AlreadyAbsent
  /-- no marker, non-zero exit status; carries status and full output. -/
  | MutationFailed (es : Int) (out : List String)
  /-- no marker, exit status zero. -/
  | Success
deriving DecidableEq

/-- The direction-specific output marker the `route_update` loop scans for. -/
def errMarker : Direction → String
  | .up => "File exists"
  | .down => "not in table"

/-- `found_err` of `route_update`: some output line contains the
direction-specific marker. -/
def found_err (rcmd : Direction) (out : List String) : Bool :=
  out.any (fun line => containsStr (errMarker rcmd) line)

/-- The outcome classification performed by `route_update` (marker scan,
lines 239–255) layered over `run_cmd`'s non-zero-exit report (line 318):
a found marker is the direction-specific idempotent outcome; otherwise a
non-zero exit status is a failure carrying the full output. -/
def classify (rcmd : Direction) (es : Int) (out : List String) : Outcome :=
  if found_err rcmd out then
    match rcmd with
    | .up => .AlreadyPresent
    | .down => .AlreadyAbsent
  else if es ≠ 0 then .MutationFailed es out
  else .Success

/-! ## Mutation execution (`route_update` lines 229–258) -/

/-- The body of `route_update`'s `for cmd in [...]` loop: run each command
through the runner oracle and classify its outcome.  The Python loop has no
`break`, `raise` or early return, so every command is processed. -/
def run_ops (rcmd : Direction) (exec : String → Int × List String) :
    List String → List (String × Outcome)
  | [] => []
  | c :: rest =>
    (c, classify rcmd (exec c).1 (exec c).2) :: run_ops rcmd exec rest

/-- `route_update`: execute the three planned commands in order, with the
process runner abstracted as the oracle `exec`. -/
def route_update (rcmd : Direction) (conf : Config)
    (exec : String → Int × List String) : List (String × Outcome) :=
  run_ops rcmd exec (route_cmds rcmd conf)

/-! ## Default gateway detection (`get_default_gw`, lines 276–304)

The pattern `default\s+((?:[0-2]?\d{1,2}\.){3}[0-2]?\d{1,2})\s+(\w+)\s` has
no anchor: `re.search` tries every start position of the line, left to
right.  The quantifiers `\s+` and `\w+` are greedy against disjoint
follow-up classes, so only the quad group needs backtracking (via
`quadOpts`, in Python's candidate order). -/

/-- `(\w+)` followed by a class disjoint from `\w`: the maximal non-empty
word-character run and the rest. -/
def takeWord1 (cs : List Char) : Option (List Char × List Char) :=
  match cs.takeWhile isWordC with
  | [] => none
  | w => some (w, cs.dropWhile isWordC)

/-- Try the gateway pattern at one start position; on success return the
two groups (gateway, flags). -/
def matchDefaultAt (cs : List Char) : Option (String × String) :=
  if strPrefixAt "default".data cs then
    (takeSpaces1 (cs.drop 7)).bind (fun r2 =>
      (quadOpts r2).findSome? (fun gwc =>
        (takeSpaces1 gwc.2).bind (fun r4 =>
          (takeWord1 r4).bind (fun wr =>
            match wr.2 with
            | c :: _ => if isSpaceC c then some (String.mk gwc.1, String.mk wr.1) else none
            | [] => none))))
  else none

/-- `re.search` of the gateway pattern over one line: first matching start
position wins. -/
def searchDefault (line : String) : Option (String × String) :=
  line.data.tails.findSome? matchDefaultAt

/-- `get_default_gw` over the captured `netstat -rn` lines: the first line
with a match supplies gateway and flags (the loop `break`s); then both the
`'G'` and `'U'` flags are required, `'G'` checked first. -/
def get_default_gw (lines : List String) : Except Err String :=
  match lines.findSome? searchDefault with
  | none => .error .gwNotFound
  | some (gw, flags) =>
    if !(containsChar flags 'G') then .error (.gwFlagMissing gw 'G')
    else if !(containsChar flags 'U') then .error (.gwFlagMissing gw 'U')
    else .ok gw

/-- Modelled from the spec (for claim C7): the "destination column" of a
routing-table row — its first whitespace-delimited token. -/
def destColumn (line : String) : List Char :=
  (line.data.dropWhile isSpaceC).takeWhile (fun c => !isSpaceC c)

/-! ## Configuration parsing (`parse_config`, lines 114–126) -/

/-- The `conf` dictionary while being built: any key may still be absent. -/
structure PConf where
  WG_CLIENT : Option String
  WG_SERVER : Option String
  DEFAULT_GW : Option String
deriving DecidableEq

/-- `re.search("^\s*%s\s+(\S+)" % var, line)`: leading whitespace, the
literal variable name, whitespace, then the captured non-space run. -/
def confVarMatch (var : String) (line : String) : Option String :=
  let r1 := line.data.dropWhile isSpaceC
  if strPrefixAt var.data r1 then
    match takeSpaces1 (r1.drop var.data.length) with
    | none => none
    | some r2 =>
      match r2.takeWhile (fun c => !isSpaceC c) with
      | [] => none
      | v => some (String.mk v)
  else none

/-- `conf[var] = value`. -/
def setVar (conf : PConf) (var : String) (value : String) : PConf :=
  if var = "WG_CLIENT" then { conf with WG_CLIENT := some value }
  else if var = "WG_SERVER" then { conf with WG_SERVER := some value }
  else { conf with DEFAULT_GW := some value }

/-- The variables `parse_config` scans for, in source order. -/
def confVars : List String := ["WG_CLIENT", "WG_SERVER", "DEFAULT_GW"]

/-- One line of the config file: the first variable whose pattern matches
(the inner loop `break`s) has its captured value resolved and stored;
a `resolve` failure propagates. -/
def parseLine (dns : String → Option String) (conf : PConf) (line : String) :
    Except Err PConf :=
  match confVars.findSome? (fun v => (confVarMatch v line).map (fun g => (v, g))) with
  | none => .ok conf
  | some (v, g) =>
    match resolve dns g with
    | .error e => .error e
    | .ok ip => .ok (setVar conf v ip)

/-- The `for line in f:` loop of `parse_config`: process each line in
order, propagating the first raised error. -/
def parseLines (dns : String → Option String) :
    PConf → List String → Except Err PConf
  | conf, [] => .ok conf
  | conf, line :: rest =>
    match parseLine dns conf line with
    | .error e => .error e
    | .ok conf2 => parseLines dns conf2 rest

/-- The tail of `parse_config` (lines 124–125): fill a missing
`DEFAULT_GW` from the live routing table. -/
def fillGW (netstat : List String) (conf : PConf) : Except Err PConf :=
  match conf.DEFAULT_GW with
  | none =>
    match get_default_gw netstat with
    | .error e => .error e
    | .ok gw => .ok { conf with DEFAULT_GW := some gw }
  | some _ => .ok conf

/-- `parse_config`: fold the file lines, then fill a missing `DEFAULT_GW`
from the live routing table (`get_default_gw` over the `netstat` lines). -/
def parse_config (dns : String → Option String) (fileLines : List String)
    (netstat : List String) : Except Err PConf :=
  match parseLines dns ⟨none, none, none⟩ fileLines with
  | .error e => .error e
  | .ok conf => fillGW netstat conf

/-! ## Helper lemmas about `run_ops` -/

theorem run_ops_map_fst (rcmd : Direction) (exec : String → Int × List String) :
    ∀ cmds : List String, (run_ops rcmd exec cmds).map Prod.fst = cmds := by
  intro cmds
  induction cmds with
  | nil => rfl
  | cons c rest ih => simp [run_ops, ih]

theorem run_ops_mem (rcmd : Direction) (exec : String → Int × List String) :
    ∀ (cmds : List String) (c : String) (o : Outcome),
      (c, o) ∈ run_ops rcmd exec cmds → o = classify rcmd (exec c).1 (exec c).2 := by
  intro cmds
  induction cmds with
  | nil => intro c o h; cases h
  | cons c0 rest ih =>
    intro c o h
    rcases List.mem_cons.mp h with h0 | h0
    · cases h0; rfl
    · exact ih c o h0

end WgRoutes

namespace WgRoutes

/-- Claim C1 (confirmed): for every Config, `plan Engage cfg` and
`plan Disengage cfg` list the same three routes (`0.0.0.0/1 →` client,
`128.0.0.0/1 →` client, server `→` gateway) in the same fixed order, with
action `Add` throughout the Engage sequence and `Delete` throughout the
Disengage sequence; moreover the command strings `route_update` actually
runs are exactly the rendering of this plan. -/
theorem C1_plan_inverse (conf : Config) :
    plan .up conf =
      [⟨.Add, ⟨"0.0.0.0/1", conf.WG_CLIENT⟩⟩,
       ⟨.Add, ⟨"128.0.0.0/1", conf.WG_CLIENT⟩⟩,
       ⟨.Add, ⟨conf.WG_SERVER, conf.DEFAULT_GW⟩⟩] ∧
    plan .down conf =
      [⟨.Delete, ⟨"0.0.0.0/1", conf.WG_CLIENT⟩⟩,
       ⟨.Delete, ⟨"128.0.0.0/1", conf.WG_CLIENT⟩⟩,
       ⟨.Delete, ⟨conf.WG_SERVER, conf.DEFAULT_GW⟩⟩] ∧
    route_cmds .up conf = (plan .up conf).map cmdString ∧
    route_cmds .down conf = (plan .down conf).map cmdString := by
  refine ⟨rfl, rfl, ?_, ?_⟩ <;>
    simp [route_cmds, plan, cmdString, update_cmd, directionAction, actionWord,
      String.append_assoc]

/-- Claim C2 (confirmed): the outcome classifier of an executed mutation
maps an `Add` (engage) output containing the already-exists marker
(`'File exists'`) to `AlreadyPresent`, a `Delete` (disengage) output
containing the not-found marker (`'not in table'`) to `AlreadyAbsent`, and
any marker-free outcome with a non-zero exit status to `MutationFailed`
carrying the exit status and the full output. -/
theorem C2_classify (es : Int) (out : List String) :
    ((∃ line ∈ out, containsStr "File exists" line = true) →
        classify .up es out = .AlreadyPresent) ∧
    ((∃ line ∈ out, containsStr "not in table" line = true) →
        classify .down es out = .AlreadyAbsent) ∧
    (∀ rcmd : Direction, found_err rcmd out = false → es ≠ 0 →
        classify rcmd es out = .MutationFailed es out) := by
  refine ⟨?_, ?_, ?_⟩
  · intro h
    have hf : found_err .up out = true := by
      simpa [found_err, errMarker, List.any_eq_true] using h
    simp [classify, hf]
  · intro h
    have hf : found_err .down out = true := by
      simpa [found_err, errMarker, List.any_eq_true] using h
    simp [classify, hf]
  · intro rcmd hf hes
    simp [classify, hf, hes]

/-- Witness for C2 at concrete outputs of the macOS `route` tool. -/
theorem C2_classify_witness :
    classify .up 0 ["route: writing to routing socket: File exists"] =
        .AlreadyPresent ∧
    classify .down 0 ["route: writing to routing socket: not in table"] =
        .AlreadyAbsent ∧
    classify .up 1 ["route: bad address"] =
        .MutationFailed 1 ["route: bad address"] := by
  refine ⟨?_, ?_, ?_⟩
  · exact (C2_classify 0 _).1
      ⟨"route: writing to routing socket: File exists", by decide, by decide⟩
  · exact (C2_classify 0 _).2.1
      ⟨"route: writing to routing socket: not in table", by decide, by decide⟩
  · exact (C2_classify 1 _).2.2 .up (by decide) (by decide)

/-- Claim C8 (confirmed): in every transition, all three planned commands
are executed in plan order — the executed command list is exactly
`route_cmds`, of length three — and each executed operation's reported
outcome is determined solely by its own command's execution: a failure of
an earlier operation never aborts, skips or rolls back a later one. -/
theorem C8_no_abort (rcmd : Direction) (conf : Config)
    (exec : String → Int × List String) (c : String) (o : Outcome)
    (hmem : (c, o) ∈ route_update rcmd conf exec) :
    (route_update rcmd conf exec).map Prod.fst = route_cmds rcmd conf ∧
    (route_update rcmd conf exec).length = 3 ∧
    o = classify rcmd (exec c).1 (exec c).2 := by
  refine ⟨run_ops_map_fst rcmd exec _, ?_, run_ops_mem rcmd exec _ c o hmem⟩
  have h := congrArg List.length (run_ops_map_fst rcmd exec (route_cmds rcmd conf))
  simpa [route_update, route_cmds] using h

/-- Witness for C8: a runner that fails every command (exit status 1) still
yields all three operations in plan order, each with its own outcome. -/
theorem C8_no_abort_witness :
    (route_update .up ⟨"10.111.55.31", "2.2.2.2", "192.168.0.1"⟩
        (fun _ => ((1 : Int), ["route: failed"]))).map Prod.fst =
      route_cmds .up ⟨"10.111.55.31", "2.2.2.2", "192.168.0.1"⟩ ∧
    (route_update .up ⟨"10.111.55.31", "2.2.2.2", "192.168.0.1"⟩
        (fun _ => ((1 : Int), ["route: failed"]))).length = 3 ∧
    Outcome.MutationFailed 1 ["route: failed"] =
      classify .up
        ((fun (_ : String) => ((1 : Int), ["route: failed"]))
            "route add 0.0.0.0/1 10.111.55.31").1
        ((fun (_ : String) => ((1 : Int), ["route: failed"]))
            "route add 0.0.0.0/1 10.111.55.31").2 :=
  C8_no_abort .up ⟨"10.111.55.31", "2.2.2.2", "192.168.0.1"⟩
    (fun _ => ((1 : Int), ["route: failed"]))
    "route add 0.0.0.0/1 10.111.55.31"
    (Outcome.MutationFailed 1 ["route: failed"]) (by decide)

/-- Claim C9 (confirmed): any input containing a colon is rejected as
unsupported IPv6 notation, independently of the DNS oracle (no lookup is
consulted) and before any IPv4 pattern check. -/
theorem C9_colon_rejected (dns : String → Option String) (host : String)
    (h : containsChar host ':' = true) :
    resolve dns host = .error .unsupportedProtocol := by
  simp [resolve, h]

/-- Witness for C9 at the IPv6 literal `"::1"`, with a DNS oracle that
would resolve everything (showing it is never consulted). -/
theorem C9_colon_rejected_witness :
    resolve (fun _ => some "10.0.0.1") "::1" = .error .unsupportedProtocol :=
  C9_colon_rejected (fun _ => some "10.0.0.1") "::1" (by decide)

/-! ## The `route_status` fold: which row each slot ends up holding -/

theorem statusStep_found_h1 (conf : Config) (s : Snapshot) (l : String) :
    (statusStep conf s l).found_h1 =
      if lineMatchH1 conf.WG_CLIENT l then some (rstrip l) else s.found_h1 := by
  unfold statusStep
  cases h1 : lineMatchH1 conf.WG_CLIENT l with
  | true => simp [h1]
  | false =>
    simp only [h1, Bool.false_eq_true, if_false]
    split
    · rfl
    · split <;> rfl

theorem statusStep_found_h2 (conf : Config) (s : Snapshot) (l : String) :
    (statusStep conf s l).found_h2 =
      if !lineMatchH1 conf.WG_CLIENT l && lineMatchH2 conf.WG_CLIENT l then
        some (rstrip l)
      else s.found_h2 := by
  unfold statusStep
  cases h1 : lineMatchH1 conf.WG_CLIENT l with
  | true => simp [h1]
  | false =>
    cases h2 : lineMatchH2 conf.WG_CLIENT l with
    | true => simp [h1, h2]
    | false =>
      simp only [h1, h2, Bool.false_eq_true, if_false, Bool.and_false, Bool.not_false]
      split <;> rfl

theorem statusStep_found_gw (conf : Config) (s : Snapshot) (l : String) :
    (statusStep conf s l).found_gw =
      if !lineMatchH1 conf.WG_CLIENT l && (!lineMatchH2 conf.WG_CLIENT l &&
          lineMatchGW conf.WG_SERVER conf.DEFAULT_GW l) then
        some (rstrip l)
      else s.found_gw := by
  unfold statusStep
  cases h1 : lineMatchH1 conf.WG_CLIENT l with
  | true => simp [h1]
  | false =>
    cases h2 : lineMatchH2 conf.WG_CLIENT l with
    | true => simp [h1, h2]
    | false =>
      cases h3 : lineMatchGW conf.WG_SERVER conf.DEFAULT_GW l with
      | true => simp [h1, h2, h3]
      | false => simp [h1, h2, h3]

theorem statusFold_h1 (conf : Config) :
    ∀ (lines : List String) (s : Snapshot),
      (lines.foldl (statusStep conf) s).found_h1 =
        match lines.reverse.find? (fun l => lineMatchH1 conf.WG_CLIENT l) with
        | some l => some (rstrip l)
        | none => s.found_h1 := by
  intro lines
  induction lines with
  | nil => intro s; rfl
  | cons l ls ih =>
    intro s
    have hstep : List.foldl (statusStep conf) s (l :: ls) =
        List.foldl (statusStep conf) (statusStep conf s l) ls := rfl
    rw [hstep, ih]
    rw [List.reverse_cons, List.find?_append]
    cases hfind : ls.reverse.find? (fun l => lineMatchH1 conf.WG_CLIENT l) with
    | some x => simp [Option.or]
    | none =>
      simp only [Option.or, statusStep_found_h1]
      cases h1 : lineMatchH1 conf.WG_CLIENT l <;> simp [List.find?, h1]

theorem statusFold_h2 (conf : Config) :
    ∀ (lines : List String) (s : Snapshot),
      (lines.foldl (statusStep conf) s).found_h2 =
        match lines.reverse.find? (fun l =>
            !lineMatchH1 conf.WG_CLIENT l && lineMatchH2 conf.WG_CLIENT l) with
        | some l => some (rstrip l)
        | none => s.found_h2 := by
  intro lines
  induction lines with
  | nil => intro s; rfl
  | cons l ls ih =>
    intro s
    have hstep : List.foldl (statusStep conf) s (l :: ls) =
        List.foldl (statusStep conf) (statusStep conf s l) ls := rfl
    rw [hstep, ih]
    rw [List.reverse_cons, List.find?_append]
    cases hfind : ls.reverse.find? (fun l =>
        !lineMatchH1 conf.WG_CLIENT l && lineMatchH2 conf.WG_CLIENT l) with
    | some x => simp [Option.or]
    | none =>
      simp only [Option.or, statusStep_found_h2]
      cases h1 : lineMatchH1 conf.WG_CLIENT l <;>
        cases h2 : lineMatchH2 conf.WG_CLIENT l <;>
          simp [List.find?, h1, h2]

theorem statusFold_gw (conf : Config) :
    ∀ (lines : List String) (s : Snapshot),
      (lines.foldl (statusStep conf) s).found_gw =
        match lines.reverse.find? (fun l =>
            !lineMatchH1 conf.WG_CLIENT l && (!lineMatchH2 conf.WG_CLIENT l &&
            lineMatchGW conf.WG_SERVER conf.DEFAULT_GW l)) with
        | some l => some (rstrip l)
        | none => s.found_gw := by
  intro lines
  induction lines with
  | nil => intro s; rfl
  | cons l ls ih =>
    intro s
    have hstep : List.foldl (statusStep conf) s (l :: ls) =
        List.foldl (statusStep conf) (statusStep conf s l) ls := rfl
    rw [hstep, ih]
    rw [List.reverse_cons, List.find?_append]
    cases hfind : ls.reverse.find? (fun l =>
        !lineMatchH1 conf.WG_CLIENT l && (!lineMatchH2 conf.WG_CLIENT l &&
        lineMatchGW conf.WG_SERVER conf.DEFAULT_GW l)) with
    | some x => simp [Option.or]
    | none =>
      simp only [Option.or, statusStep_found_gw]
      cases h1 : lineMatchH1 conf.WG_CLIENT l <;>
        cases h2 : lineMatchH2 conf.WG_CLIENT l <;>
          cases h3 : lineMatchGW conf.WG_SERVER conf.DEFAULT_GW l <;>
            simp [List.find?, h1, h2, h3]

/-- Counterexample to claim C3: two rows both matching the first pattern
(`0/1 →` client).  The snapshot keeps the SECOND row, not the first: the
later matching row overwrites the earlier match. -/
theorem C3_first_match_cex :
    route_status ⟨"10.111.55.31", "2.2.2.2", "192.168.0.1"⟩
        ["0/1   10.111.55.31 A", "0/1   10.111.55.31 B"] =
      ⟨some "0/1   10.111.55.31 B", none, none⟩ ∧
    ("0/1   10.111.55.31 B" : String) ≠ "0/1   10.111.55.31 A" := by
  constructor
  · rfl
  · decide

/-- Claim C3 amended: each row is still classified against at most one of
the three patterns (the `if/elif` chain tries them in order and stops at
the first that matches), but when two rows match the same pattern the LAST
matching row is kept — a later matching row overwrites the earlier match.
Each slot holds exactly the last row matching its pattern (and, for the
second and third patterns, matching no earlier pattern), rstripped. -/
theorem C3_snapshot_amended (conf : Config) (lines : List String) :
    (route_status conf lines).found_h1 =
      (lines.reverse.find? (fun l => lineMatchH1 conf.WG_CLIENT l)).map rstrip ∧
    (route_status conf lines).found_h2 =
      (lines.reverse.find? (fun l =>
          !lineMatchH1 conf.WG_CLIENT l && lineMatchH2 conf.WG_CLIENT l)).map rstrip ∧
    (route_status conf lines).found_gw =
      (lines.reverse.find? (fun l =>
          !lineMatchH1 conf.WG_CLIENT l && (!lineMatchH2 conf.WG_CLIENT l &&
          lineMatchGW conf.WG_SERVER conf.DEFAULT_GW l))).map rstrip := by
  refine ⟨?_, ?_, ?_⟩
  · rw [route_status, statusFold_h1]
    cases lines.reverse.find? (fun l => lineMatchH1 conf.WG_CLIENT l) <;> rfl
  · rw [route_status, statusFold_h2]
    cases lines.reverse.find? (fun l =>
        !lineMatchH1 conf.WG_CLIENT l && lineMatchH2 conf.WG_CLIENT l) <;> rfl
  · rw [route_status, statusFold_gw]
    cases lines.reverse.find? (fun l =>
        !lineMatchH1 conf.WG_CLIENT l && (!lineMatchH2 conf.WG_CLIENT l &&
        lineMatchGW conf.WG_SERVER conf.DEFAULT_GW l)) <;> rfl

/-- Claim C4 (confirmed): gateway detection fails naming the missing flag
whenever the matched row's flags lack `'G'` or `'U'` (`'G'` is checked
first), fails with the gateway-not-found error when no row matches, and
returns the gateway exactly when both flags are present; concretely, a
`default` row with gateway `192.168.0.1` and flags `UGSc` yields
`192.168.0.1`, and the same row with flags `US` fails naming `'G'`. -/
theorem C4_gateway_flags (lines : List String) :
    (∀ gw flags, lines.findSome? searchDefault = some (gw, flags) →
      (containsChar flags 'G' = false →
          get_default_gw lines = .error (.gwFlagMissing gw 'G')) ∧
      (containsChar flags 'G' = true → containsChar flags 'U' = false →
          get_default_gw lines = .error (.gwFlagMissing gw 'U')) ∧
      (containsChar flags 'G' = true → containsChar flags 'U' = true →
          get_default_gw lines = .ok gw)) ∧
    (lines.findSome? searchDefault = none →
        get_default_gw lines = .error .gwNotFound) ∧
    get_default_gw ["default            192.168.0.1        UGSc           69        0     en0"] =
      .ok "192.168.0.1" ∧
    get_default_gw ["default            192.168.0.1        US           69        0     en0"] =
      .error (.gwFlagMissing "192.168.0.1" 'G') := by
  refine ⟨?_, ?_, by rfl, by rfl⟩
  · intro gw flags hfind
    refine ⟨?_, ?_, ?_⟩
    · intro hG; simp [get_default_gw, hfind, hG]
    · intro hG hU; simp [get_default_gw, hfind, hG, hU]
    · intro hG hU; simp [get_default_gw, hfind, hG, hU]
  · intro hfind; simp [get_default_gw, hfind]

/-- Witness for C4: a matched row lacking the `'U'` flag fails naming
`'U'`. -/
theorem C4_gateway_flags_witness :
    get_default_gw ["default 10.0.0.1 GSc x"] =
      .error (.gwFlagMissing "10.0.0.1" 'U') :=
  ((C4_gateway_flags ["default 10.0.0.1 GSc x"]).1 "10.0.0.1" "GSc"
    (by rfl)).2.1 (by decide) (by decide)

/-- Counterexample to claim C7: a row whose destination column is `"x"`,
not `default`, is nevertheless matched, because the pattern is unanchored
and finds `default 1.2.3.4 UG ` in the middle of the line. -/
theorem C7_destination_cex :
    destColumn "x default 1.2.3.4 UG y" ≠ "default".data ∧
    get_default_gw ["x default 1.2.3.4 UG y"] = .ok "1.2.3.4" := by
  constructor
  · decide
  · rfl

/-- Claim C7 amended: gateway detection matches any line in which the
substring `default` is followed by whitespace, an IPv4-like gateway, more
whitespace, a flags word and a whitespace character — anywhere in the
line, not only as its destination column — and when several lines match,
only the first matching line in table order determines the returned
gateway and flags. -/
theorem C7_first_line_amended (l : String) (ls : List String) :
    (∀ r, searchDefault l = some r → get_default_gw (l :: ls) = get_default_gw [l]) ∧
    (searchDefault l = none → get_default_gw (l :: ls) = get_default_gw ls) := by
  constructor
  · intro r hr
    simp [get_default_gw, List.findSome?_cons, hr]
  · intro hr
    simp [get_default_gw, List.findSome?_cons, hr]

/-- Witness for C7's amended claim: the first matching line wins over a
later `default` row. -/
theorem C7_first_line_amended_witness :
    get_default_gw ["x default 1.2.3.4 UG y", "default 9.9.9.9 UG z"] =
      get_default_gw ["x default 1.2.3.4 UG y"] :=
  (C7_first_line_amended "x default 1.2.3.4 UG y" ["default 9.9.9.9 UG z"]).1
    ("1.2.3.4", "UG") (by rfl)

/-! ## `parse_config` and the DEFAULT_GW fallback -/

theorem parseLine_gw_preserved (dns : String → Option String) (acc a : PConf)
    (l : String) (hnone : confVarMatch "DEFAULT_GW" l = none)
    (h : parseLine dns acc l = .ok a) : a.DEFAULT_GW = acc.DEFAULT_GW := by
  unfold parseLine at h
  simp only [confVars, List.findSome?, hnone, Option.map_none'] at h
  cases hc : confVarMatch "WG_CLIENT" l with
  | some g =>
    rw [hc] at h
    simp only [Option.map_some'] at h
    cases hr : resolve dns g with
    | error e => rw [hr] at h; cases h
    | ok ip =>
      rw [hr] at h
      cases h
      simp [setVar]
  | none =>
    rw [hc] at h
    simp only [Option.map_none'] at h
    cases hs : confVarMatch "WG_SERVER" l with
    | some g =>
      rw [hs] at h
      simp only [Option.map_some'] at h
      cases hr : resolve dns g with
      | error e => rw [hr] at h; cases h
      | ok ip =>
        rw [hr] at h
        cases h
        simp [setVar]
    | none =>
      rw [hs] at h
      cases h
      rfl

theorem parseLines_gw_none (dns : String → Option String) :
    ∀ (lines : List String) (acc conf : PConf),
      (∀ line ∈ lines, confVarMatch "DEFAULT_GW" line = none) →
      parseLines dns acc lines = .ok conf → conf.DEFAULT_GW = acc.DEFAULT_GW := by
  intro lines
  induction lines with
  | nil =>
    intro acc conf _ h
    cases h
    rfl
  | cons l ls ih =>
    intro acc conf hnone h
    unfold parseLines at h
    cases hp : parseLine dns acc l with
    | error e => rw [hp] at h; cases h
    | ok a =>
      rw [hp] at h
      have h1 := ih a conf (fun line hm => hnone line (List.mem_cons_of_mem l hm)) h
      have h2 := parseLine_gw_preserved dns acc a l (hnone l (List.mem_cons_self l ls)) hp
      rw [h1, h2]

/-- Claim C10 (confirmed): when the configuration file contains no
`DEFAULT_GW` entry, `parse_config` fills the default-gateway field from the
live routing table via `get_default_gw`; and whenever `parse_config`
returns without error, the resulting configuration maps `DEFAULT_GW` to a
detected or configured gateway address. -/
theorem C10_default_gw_fallback (dns : String → Option String)
    (fileLines netstat : List String) (conf : PConf)
    (hok : parse_config dns fileLines netstat = .ok conf) :
    conf.DEFAULT_GW ≠ none ∧
    ((∀ line ∈ fileLines, confVarMatch "DEFAULT_GW" line = none) →
      ∃ gw, get_default_gw netstat = .ok gw ∧ conf.DEFAULT_GW = some gw) := by
  unfold parse_config at hok
  cases hfold : parseLines dns ⟨none, none, none⟩ fileLines with
  | error e => rw [hfold] at hok; cases hok
  | ok c =>
    rw [hfold] at hok
    change fillGW netstat c = .ok conf at hok
    unfold fillGW at hok
    cases hgw : c.DEFAULT_GW with
    | none =>
      rw [hgw] at hok
      cases hdet : get_default_gw netstat with
      | error e => rw [hdet] at hok; cases hok
      | ok gw =>
        rw [hdet] at hok
        cases hok
        exact ⟨by simp, fun _ => ⟨gw, rfl, rfl⟩⟩
    | some g =>
      rw [hgw] at hok
      cases hok
      refine ⟨by simp [hgw], fun hnone => ?_⟩
      have hz := parseLines_gw_none dns fileLines ⟨none, none, none⟩ conf hnone hfold
      rw [hgw] at hz
      cases hz

/-- Witness for C10: a config file without a `DEFAULT_GW` line yields a
configuration whose gateway is the one detected from the routing table. -/
theorem C10_default_gw_fallback_witness :
    (⟨some "10.111.55.31", some "2.2.2.2", some "192.168.0.1"⟩ : PConf).DEFAULT_GW ≠ none ∧
    ∃ gw, get_default_gw ["default 192.168.0.1 UGSc en0"] = .ok gw ∧
      (⟨some "10.111.55.31", some "2.2.2.2", some "192.168.0.1"⟩ : PConf).DEFAULT_GW = some gw := by
  have h := C10_default_gw_fallback (fun _ => none)
    ["WG_CLIENT 10.111.55.31", "WG_SERVER 2.2.2.2"]
    ["default 192.168.0.1 UGSc en0"]
    ⟨some "10.111.55.31", some "2.2.2.2", some "192.168.0.1"⟩ (by rfl)
  exact ⟨h.1, h.2 (by decide)⟩

/-! ## Soundness and completeness of the octet candidate lists -/

theorem mem_cond_single {α : Type} (b : Bool) (x y : α) :
    (y ∈ if b = true then [x] else []) ↔ b = true ∧ y = x := by
  cases b <;> simp

theorem is02_isDigit (c : Char) (h : is02 c = true) : isDigitC c = true := by
  simp only [is02, isDigitC, Bool.and_eq_true, decide_eq_true_eq] at *
  omega

theorem octet_complete (o r : List Char) (h : octetShape o = true) :
    (o, r) ∈ octetOpts (o ++ r) := by
  cases o with
  | nil => simp [octetShape] at h
  | cons a o1 =>
    cases o1 with
    | nil =>
      simp only [octetShape] at h
      cases r with
      | nil => simp [octetOpts, h]
      | cons c1 r1 =>
        cases r1 with
        | nil => simp [octetOpts, h, List.mem_append, mem_cond_single]
        | cons c2 r2 => simp [octetOpts, h, List.mem_append, mem_cond_single]
    | cons b o2 =>
      cases o2 with
      | nil =>
        simp only [octetShape, Bool.and_eq_true] at h
        cases r with
        | nil => simp [octetOpts, h.1, h.2, List.mem_append, mem_cond_single]
        | cons c2 r2 => simp [octetOpts, h.1, h.2, List.mem_append, mem_cond_single]
      | cons c3 o3 =>
        cases o3 with
        | nil =>
          simp only [octetShape, Bool.and_eq_true] at h
          simp [octetOpts, h.1.1, h.1.2, h.2, List.mem_append, mem_cond_single]
        | cons d o4 => simp [octetShape] at h

theorem octet_sound (o r cs : List Char) (h : (o, r) ∈ octetOpts cs) :
    cs = o ++ r ∧ octetShape o = true := by
  cases cs with
  | nil => simp [octetOpts] at h
  | cons c0 rest =>
    cases rest with
    | nil =>
      simp only [octetOpts, List.nil_append] at h
      obtain ⟨hb, he⟩ := (mem_cond_single _ _ _).mp h
      rw [Prod.mk.injEq] at he
      obtain ⟨ho, hr⟩ := he
      subst ho; subst hr
      exact ⟨rfl, by simpa [octetShape] using hb⟩
    | cons c1 rest1 =>
      cases rest1 with
      | nil =>
        simp only [octetOpts, List.mem_append] at h
        rcases h with h | h | h
        · obtain ⟨hb, he⟩ := (mem_cond_single _ _ _).mp h
          rw [Prod.mk.injEq] at he
          obtain ⟨ho, hr⟩ := he
          subst ho; subst hr
          simp only [Bool.and_eq_true] at hb
          exact ⟨rfl, by simp [octetShape, is02_isDigit _ hb.1, hb.2]⟩
        · obtain ⟨hb, he⟩ := (mem_cond_single _ _ _).mp h
          rw [Prod.mk.injEq] at he
          obtain ⟨ho, hr⟩ := he
          subst ho; subst hr
          simp only [Bool.and_eq_true] at hb
          exact ⟨rfl, by simp [octetShape, hb.1, hb.2]⟩
        · obtain ⟨hb, he⟩ := (mem_cond_single _ _ _).mp h
          rw [Prod.mk.injEq] at he
          obtain ⟨ho, hr⟩ := he
          subst ho; subst hr
          exact ⟨rfl, by simpa [octetShape] using hb⟩
      | cons c2 rest2 =>
        simp only [octetOpts, List.mem_append] at h
        rcases h with (h | h) | (h | h)
        · obtain ⟨hb, he⟩ := (mem_cond_single _ _ _).mp h
          rw [Prod.mk.injEq] at he
          obtain ⟨ho, hr⟩ := he
          subst ho; subst hr
          simp only [Bool.and_eq_true] at hb
          exact ⟨rfl, by simp [octetShape, hb.1.1, hb.1.2, hb.2]⟩
        · obtain ⟨hb, he⟩ := (mem_cond_single _ _ _).mp h
          rw [Prod.mk.injEq] at he
          obtain ⟨ho, hr⟩ := he
          subst ho; subst hr
          simp only [Bool.and_eq_true] at hb
          exact ⟨rfl, by simp [octetShape, is02_isDigit _ hb.1, hb.2]⟩
        · obtain ⟨hb, he⟩ := (mem_cond_single _ _ _).mp h
          rw [Prod.mk.injEq] at he
          obtain ⟨ho, hr⟩ := he
          subst ho; subst hr
          simp only [Bool.and_eq_true] at hb
          exact ⟨rfl, by simp [octetShape, hb.1, hb.2]⟩
        · obtain ⟨hb, he⟩ := (mem_cond_single _ _ _).mp h
          rw [Prod.mk.injEq] at he
          obtain ⟨ho, hr⟩ := he
          subst ho; subst hr
          exact ⟨rfl, by simpa [octetShape] using hb⟩

theorem octDot_complete (o r : List Char) (h : octetShape o = true) :
    (o ++ ['.'], r) ∈ octDotOpts (o ++ '.' :: r) := by
  unfold octDotOpts
  apply List.mem_flatMap.mpr
  refine ⟨(o, '.' :: r), octet_complete o ('.' :: r) h, ?_⟩
  simp

theorem octDot_sound (p r cs : List Char) (h : (p, r) ∈ octDotOpts cs) :
    ∃ o, p = o ++ ['.'] ∧ cs = o ++ '.' :: r ∧ octetShape o = true := by
  unfold octDotOpts at h
  rw [List.mem_flatMap] at h
  obtain ⟨q, hq, hmem⟩ := h
  obtain ⟨hcs, hshape⟩ := octet_sound q.1 q.2 cs hq
  cases hq2 : q.2 with
  | nil => rw [hq2] at hmem; simp at hmem
  | cons c r2 =>
    rw [hq2] at hmem
    by_cases hc : c = '.'
    · subst hc
      simp at hmem
      obtain ⟨hp, hr⟩ := hmem
      exact ⟨q.1, hp, by rw [hcs, hq2, hr], hshape⟩
    · simp [hc] at hmem

theorem quad_complete (a b c d rr : List Char) (ha : octetShape a = true)
    (hb : octetShape b = true) (hc : octetShape c = true) (hd : octetShape d = true) :
    ((((a ++ ['.']) ++ (b ++ ['.'])) ++ (c ++ ['.'])) ++ d, rr) ∈
      quadOpts (a ++ '.' :: (b ++ '.' :: (c ++ '.' :: (d ++ rr)))) := by
  unfold quadOpts
  apply List.mem_flatMap.mpr
  refine ⟨(a ++ ['.'], b ++ '.' :: (c ++ '.' :: (d ++ rr))),
    octDot_complete a _ ha, ?_⟩
  apply List.mem_flatMap.mpr
  refine ⟨(b ++ ['.'], c ++ '.' :: (d ++ rr)), octDot_complete b _ hb, ?_⟩
  apply List.mem_flatMap.mpr
  refine ⟨(c ++ ['.'], d ++ rr), octDot_complete c _ hc, ?_⟩
  apply List.mem_map.mpr
  exact ⟨(d, rr), octet_complete d rr hd, rfl⟩

theorem quad_sound (g rr cs : List Char) (h : (g, rr) ∈ quadOpts cs) :
    ∃ a b c d, octetShape a = true ∧ octetShape b = true ∧
      octetShape c = true ∧ octetShape d = true ∧
      g = (((a ++ ['.']) ++ (b ++ ['.'])) ++ (c ++ ['.'])) ++ d ∧
      cs = g ++ rr := by
  unfold quadOpts at h
  rw [List.mem_flatMap] at h
  obtain ⟨A, hA, h⟩ := h
  rw [List.mem_flatMap] at h
  obtain ⟨B, hB, h⟩ := h
  rw [List.mem_flatMap] at h
  obtain ⟨C, hC, h⟩ := h
  rw [List.mem_map] at h
  obtain ⟨D, hD, hEq⟩ := h
  obtain ⟨a, hA1, hAcs, hAs⟩ := octDot_sound A.1 A.2 cs hA
  obtain ⟨b, hB1, hBcs, hBs⟩ := octDot_sound B.1 B.2 A.2 hB
  obtain ⟨c, hC1, hCcs, hCs⟩ := octDot_sound C.1 C.2 B.2 hC
  obtain ⟨hDcs, hDs⟩ := octet_sound D.1 D.2 C.2 hD
  rw [Prod.mk.injEq] at hEq
  obtain ⟨hg, hrr⟩ := hEq
  refine ⟨a, b, c, D.1, hAs, hBs, hCs, hDs, ?_, ?_⟩
  · rw [← hg, hA1, hB1, hC1]
  · rw [← hg, ← hrr, hAcs, hA1, hBcs, hB1, hCcs, hC1, hDcs]
    simp [List.append_assoc]

theorem self_mem_tails {α : Type} (l : List α) : l ∈ l.tails := by
  cases l <;> simp [List.tails]

theorem pat_of_quad_mem (g rr cs : List Char) (h : (g, rr) ∈ quadOpts cs) :
    containsIPv4Pat (String.mk g) = true := by
  obtain ⟨a, b, c, d, ha, hb, hc, hd, hg, _⟩ := quad_sound g rr cs h
  have hmem := quad_complete a b c d [] ha hb hc hd
  have hcs : a ++ '.' :: (b ++ '.' :: (c ++ '.' :: (d ++ []))) = g := by
    rw [hg]; simp [List.append_assoc]
  rw [hcs, ← hg] at hmem
  have hne := List.ne_nil_of_mem hmem
  unfold containsIPv4Pat
  rw [List.any_eq_true]
  refine ⟨g, self_mem_tails g, ?_⟩
  cases hq : quadOpts g with
  | nil => exact absurd hq hne
  | cons x xs => simp [List.isEmpty]

theorem splitDots_ne_nil (cs : List Char) : splitDots cs ≠ [] := by
  cases cs with
  | nil => simp [splitDots]
  | cons c r =>
    unfold splitDots
    by_cases hc : c = '.'
    · simp [hc]
    · rw [if_neg hc]
      cases h : splitDots r with
      | nil => simp
      | cons x t => simp

theorem joinDots_splitDots : ∀ cs : List Char, joinDots (splitDots cs) = cs := by
  intro cs
  induction cs with
  | nil => rfl
  | cons c r ih =>
    unfold splitDots
    by_cases hc : c = '.'
    · subst hc
      rw [if_pos rfl]
      cases h : splitDots r with
      | nil => exact absurd h (splitDots_ne_nil r)
      | cons x t =>
        have ih2 : joinDots (x :: t) = r := by rw [← h]; exact ih
        show joinDots ([] :: x :: t) = '.' :: r
        show [] ++ '.' :: joinDots (x :: t) = '.' :: r
        simp [ih2]
    · rw [if_neg hc]
      cases h : splitDots r with
      | nil => exact absurd h (splitDots_ne_nil r)
      | cons x t =>
        have ih2 : joinDots (x :: t) = r := by rw [← h]; exact ih
        cases t with
        | nil =>
          show (c :: x) = c :: r
          exact congrArg (c :: ·) ih2
        | cons y t2 =>
          show (c :: x) ++ '.' :: joinDots (y :: t2) = c :: r
          show c :: (x ++ '.' :: joinDots (y :: t2)) = c :: r
          exact congrArg (c :: ·) ih2

theorem isOctetStr_shape (o : List Char) (h : isOctetStr o = true) :
    octetShape o = true := by
  simp only [isOctetStr, Bool.and_eq_true, decide_eq_true_eq, List.all_eq_true] at h
  obtain ⟨⟨⟨hne, hlen⟩, hdig⟩, hval⟩ := h
  cases o with
  | nil => exact absurd rfl hne
  | cons a o1 =>
    cases o1 with
    | nil =>
      simp only [octetShape]
      exact hdig a (by simp)
    | cons b o2 =>
      cases o2 with
      | nil =>
        simp only [octetShape, Bool.and_eq_true]
        exact ⟨hdig a (by simp), hdig b (by simp)⟩
      | cons c o3 =>
        cases o3 with
        | nil =>
          have hda := hdig a (by simp)
          have hdb := hdig b (by simp)
          have hdc := hdig c (by simp)
          simp only [isDigitC, Bool.and_eq_true, decide_eq_true_eq] at hda hdb hdc
          have hv : ((0 * 10 + (a.toNat - 48)) * 10 + (b.toNat - 48)) * 10 +
              (c.toNat - 48) ≤ 255 := by
            simpa [octetVal, List.foldl] using hval
          simp only [octetShape, is02, isDigitC, Bool.and_eq_true, decide_eq_true_eq]
          omega
        | cons d o4 =>
          simp at hlen

theorem valid_quad_pat (s : String) (h : isValidDottedQuad s = true) :
    containsIPv4Pat s = true := by
  unfold isValidDottedQuad at h
  rcases hsp : splitDots s.data with _ | ⟨a, _ | ⟨b, _ | ⟨c, _ | ⟨d, _ | ⟨e, t⟩⟩⟩⟩⟩ <;>
    rw [hsp] at h
  · simp at h
  · simp at h
  · simp at h
  · simp at h
  case cons.cons.cons.nil =>
    simp only [Bool.and_eq_true] at h
    obtain ⟨⟨⟨hoa, hob⟩, hoc⟩, hod⟩ := h
    have hjoin := joinDots_splitDots s.data
    rw [hsp] at hjoin
    have hmem := quad_complete a b c d []
      (isOctetStr_shape a hoa) (isOctetStr_shape b hob)
      (isOctetStr_shape c hoc) (isOctetStr_shape d hod)
    rw [List.append_nil] at hmem
    rw [show a ++ '.' :: (b ++ '.' :: (c ++ '.' :: d)) = s.data from hjoin] at hmem
    have hne := List.ne_nil_of_mem hmem
    unfold containsIPv4Pat
    rw [List.any_eq_true]
    refine ⟨s.data, self_mem_tails _, ?_⟩
    cases hq : quadOpts s.data with
    | nil => exact absurd hq hne
    | cons x xs => simp [List.isEmpty]
  case cons.cons.cons.cons => simp at h

/-! ## Everything the source accepts matches the IPv4-ish pattern -/

theorem resolve_ok_pat (dns : String → Option String) (host ip : String)
    (h : resolve dns host = .ok ip) : containsIPv4Pat ip = true := by
  unfold resolve at h
  by_cases hc : containsChar host ':' = true
  · rw [if_pos hc] at h; cases h
  · rw [if_neg hc] at h
    by_cases hp : containsIPv4Pat host = true
    · rw [if_pos hp] at h
      cases h
      exact hp
    · rw [if_neg hp] at h
      cases hd : dns host with
      | none => rw [hd] at h; cases h
      | some q =>
        rw [hd] at h
        change (if (decide (q = "") || !containsIPv4Pat q) = true
                then Except.error (Err.resolutionFailed q)
                else Except.ok q) = Except.ok ip at h
        by_cases hq : (decide (q = "") || !containsIPv4Pat q) = true
        · rw [if_pos hq] at h; cases h
        · rw [if_neg hq] at h
          cases h
          cases hpat : containsIPv4Pat ip with
          | false => exact absurd (by simp [hpat]) hq
          | true => rfl

theorem searchDefault_pat (line : String) (gw flags : String)
    (h : searchDefault line = some (gw, flags)) : containsIPv4Pat gw = true := by
  unfold searchDefault at h
  obtain ⟨t, ht, hm⟩ := List.exists_of_findSome?_eq_some h
  unfold matchDefaultAt at hm
  by_cases hpre : strPrefixAt "default".data t = true
  · rw [if_pos hpre] at hm
    rw [Option.bind_eq_some] at hm
    obtain ⟨r2, _, hm⟩ := hm
    obtain ⟨gwc, hgwc, hk⟩ := List.exists_of_findSome?_eq_some hm
    rw [Option.bind_eq_some] at hk
    obtain ⟨r4, _, hk⟩ := hk
    rw [Option.bind_eq_some] at hk
    obtain ⟨wr, _, hk⟩ := hk
    cases hw2 : wr.2 with
    | nil => rw [hw2] at hk; cases hk
    | cons c rest =>
      rw [hw2] at hk
      change (if isSpaceC c = true then some (String.mk gwc.1, String.mk wr.1)
              else none) = some (gw, flags) at hk
      by_cases hsp : isSpaceC c = true
      · rw [if_pos hsp] at hk
        injection hk with hpair
        rw [Prod.mk.injEq] at hpair
        obtain ⟨hg, _⟩ := hpair
        rw [← hg]
        exact pat_of_quad_mem gwc.1 gwc.2 r2 hgwc
      · rw [if_neg hsp] at hk; cases hk
  · rw [if_neg hpre] at hm; cases hm

theorem get_default_gw_ok_pat (lines : List String) (gw : String)
    (h : get_default_gw lines = .ok gw) : containsIPv4Pat gw = true := by
  unfold get_default_gw at h
  cases hf : lines.findSome? searchDefault with
  | none => rw [hf] at h; cases h
  | some p =>
    obtain ⟨g, fl⟩ := p
    rw [hf] at h
    change (if !(containsChar fl 'G') then Except.error (Err.gwFlagMissing g 'G')
            else if !(containsChar fl 'U') then Except.error (Err.gwFlagMissing g 'U')
            else Except.ok g) = Except.ok gw at h
    by_cases h1 : (!containsChar fl 'G') = true
    · rw [if_pos h1] at h; cases h
    · rw [if_neg h1] at h
      by_cases h2 : (!containsChar fl 'U') = true
      · rw [if_pos h2] at h; cases h
      · rw [if_neg h2] at h
        cases h
        obtain ⟨line, hline, hsd⟩ := List.exists_of_findSome?_eq_some hf
        exact searchDefault_pat line gw fl hsd

/-- Counterexample to claim C5: `"299.1.2.3"` is not a valid IPv4
dotted-quad (299 > 255), yet `resolve` performs no DNS lookup on it — even
with a lookup oracle that always fails, it is returned unchanged —
because the source's pattern check accepts any string containing an
IPv4-like substring. -/
theorem C5_no_lookup_cex :
    isValidDottedQuad "299.1.2.3" = false ∧
    resolve (fun _ => none) "299.1.2.3" = .ok "299.1.2.3" :=
  ⟨by decide, by rfl⟩

/-- Claim C5 amended: a colon-free input matching the IPv4-like pattern
anywhere (in particular every valid dotted-quad) is returned unchanged
with no DNS lookup; a DNS lookup happens only for colon-free inputs with
no pattern match, and then a failing lookup, an empty result, or a result
not matching the pattern is a resolution error, while a pattern-matching
result is returned. -/
theorem C5_resolve_amended (dns : String → Option String) (host : String)
    (hcolon : containsChar host ':' = false) :
    (containsIPv4Pat host = true → resolve dns host = .ok host) ∧
    (isValidDottedQuad host = true → resolve dns host = .ok host) ∧
    (containsIPv4Pat host = false →
      (dns host = none → resolve dns host = .error (.dnsFailure host)) ∧
      (∀ ip, dns host = some ip → containsIPv4Pat ip = false →
        resolve dns host = .error (.resolutionFailed ip)) ∧
      (∀ ip, dns host = some ip → containsIPv4Pat ip = true →
        resolve dns host = .ok ip)) := by
  refine ⟨?_, ?_, ?_⟩
  · intro hp; simp [resolve, hcolon, hp]
  · intro hv; simp [resolve, hcolon, valid_quad_pat host hv]
  · intro hp
    refine ⟨?_, ?_, ?_⟩
    · intro hd; simp [resolve, hcolon, hp, hd]
    · intro ip hd hip; simp [resolve, hcolon, hp, hd, hip]
    · intro ip hd hip
      have hne : ip ≠ "" := by
        intro he
        rw [he] at hip
        rw [show containsIPv4Pat "" = false from by decide] at hip
        cases hip
      simp [resolve, hcolon, hp, hd, hip, hne]

/-- Witness for C5's amended claim: a dotted-quad is returned unchanged
with a failing DNS oracle; a hostname goes through the oracle. -/
theorem C5_resolve_amended_witness :
    resolve (fun _ => none) "10.111.55.31" = .ok "10.111.55.31" ∧
    resolve (fun _ => some "93.184.216.34") "wgserver" = .ok "93.184.216.34" :=
  ⟨(C5_resolve_amended (fun _ => none) "10.111.55.31" (by decide)).2.1 (by decide),
   ((C5_resolve_amended (fun _ => some "93.184.216.34") "wgserver"
      (by decide)).2.2 (by decide)).2.2 "93.184.216.34" rfl (by decide)⟩

/-! ## The resolved-field invariant of `parse_config` (claim C6) -/

theorem setVar_pat (acc : PConf) (var ip : String)
    (hip : containsIPv4Pat ip = true)
    (hc : ∀ v, acc.WG_CLIENT = some v → containsIPv4Pat v = true)
    (hs : ∀ v, acc.WG_SERVER = some v → containsIPv4Pat v = true)
    (hg : ∀ v, acc.DEFAULT_GW = some v → containsIPv4Pat v = true) :
    (∀ v, (setVar acc var ip).WG_CLIENT = some v → containsIPv4Pat v = true) ∧
    (∀ v, (setVar acc var ip).WG_SERVER = some v → containsIPv4Pat v = true) ∧
    (∀ v, (setVar acc var ip).DEFAULT_GW = some v → containsIPv4Pat v = true) := by
  unfold setVar
  split_ifs with h1 h2
  · exact ⟨fun v hv => by simp at hv; exact hv ▸ hip, hs, hg⟩
  · exact ⟨hc, fun v hv => by simp at hv; exact hv ▸ hip, hg⟩
  · exact ⟨hc, hs, fun v hv => by simp at hv; exact hv ▸ hip⟩

theorem parseLine_pat (dns : String → Option String) (acc a : PConf) (l : String)
    (h : parseLine dns acc l = .ok a)
    (hc : ∀ v, acc.WG_CLIENT = some v → containsIPv4Pat v = true)
    (hs : ∀ v, acc.WG_SERVER = some v → containsIPv4Pat v = true)
    (hg : ∀ v, acc.DEFAULT_GW = some v → containsIPv4Pat v = true) :
    (∀ v, a.WG_CLIENT = some v → containsIPv4Pat v = true) ∧
    (∀ v, a.WG_SERVER = some v → containsIPv4Pat v = true) ∧
    (∀ v, a.DEFAULT_GW = some v → containsIPv4Pat v = true) := by
  unfold parseLine at h
  cases hfs : confVars.findSome?
      (fun v => (confVarMatch v l).map (fun g => (v, g))) with
  | none =>
    rw [hfs] at h
    cases h
    exact ⟨hc, hs, hg⟩
  | some p =>
    obtain ⟨v0, g⟩ := p
    rw [hfs] at h
    change (match resolve dns g with
            | Except.error e => Except.error e
            | Except.ok ip => Except.ok (setVar acc v0 ip)) = Except.ok a at h
    cases hr : resolve dns g with
    | error e => rw [hr] at h; cases h
    | ok ip =>
      rw [hr] at h
      cases h
      exact setVar_pat acc v0 ip (resolve_ok_pat dns g ip hr) hc hs hg

theorem parseLines_pat (dns : String → Option String) :
    ∀ (lines : List String) (acc conf : PConf),
      parseLines dns acc lines = .ok conf →
      (∀ v, acc.WG_CLIENT = some v → containsIPv4Pat v = true) →
      (∀ v, acc.WG_SERVER = some v → containsIPv4Pat v = true) →
      (∀ v, acc.DEFAULT_GW = some v → containsIPv4Pat v = true) →
      (∀ v, conf.WG_CLIENT = some v → containsIPv4Pat v = true) ∧
      (∀ v, conf.WG_SERVER = some v → containsIPv4Pat v = true) ∧
      (∀ v, conf.DEFAULT_GW = some v → containsIPv4Pat v = true) := by
  intro lines
  induction lines with
  | nil =>
    intro acc conf h hc hs hg
    cases h
    exact ⟨hc, hs, hg⟩
  | cons l ls ih =>
    intro acc conf h hc hs hg
    unfold parseLines at h
    cases hp : parseLine dns acc l with
    | error e => rw [hp] at h; cases h
    | ok a =>
      rw [hp] at h
      obtain ⟨hc2, hs2, hg2⟩ := parseLine_pat dns acc a l hp hc hs hg
      exact ih a conf h hc2 hs2 hg2

/-- Counterexample to claim C6: `resolve` returns `"x1.2.3.4y"` unchanged
(the pattern check matches a substring), so a parsed configuration can hold
a tunnel-client value that is not a syntactically valid IPv4 dotted-quad. -/
theorem C6_valid_fields_cex :
    resolve (fun _ => none) "x1.2.3.4y" = .ok "x1.2.3.4y" ∧
    isValidDottedQuad "x1.2.3.4y" = false ∧
    parse_config (fun _ => none)
        ["WG_CLIENT x1.2.3.4y", "WG_SERVER 1.2.3.4", "DEFAULT_GW 1.2.3.4"] [] =
      .ok ⟨some "x1.2.3.4y", some "1.2.3.4", some "1.2.3.4"⟩ :=
  ⟨by rfl, by decide, by rfl⟩

/-- Claim C6 amended: every address field present in a configuration that
`parse_config` returns contains a substring matching the source's
IPv4-like pattern (which admits octets up to 299 and ignores surrounding
text) — file values because `resolve` only accepts pattern-matching
strings, a detected gateway because the captured group is a full pattern
match; full dotted-quad validity is NOT guaranteed. -/
theorem C6_fields_pattern_amended (dns : String → Option String)
    (fileLines netstat : List String) (conf : PConf)
    (hok : parse_config dns fileLines netstat = .ok conf) :
    (∀ v, conf.WG_CLIENT = some v → containsIPv4Pat v = true) ∧
    (∀ v, conf.WG_SERVER = some v → containsIPv4Pat v = true) ∧
    (∀ v, conf.DEFAULT_GW = some v → containsIPv4Pat v = true) := by
  unfold parse_config at hok
  cases hfold : parseLines dns ⟨none, none, none⟩ fileLines with
  | error e => rw [hfold] at hok; cases hok
  | ok c =>
    rw [hfold] at hok
    change fillGW netstat c = .ok conf at hok
    have hinv := parseLines_pat dns fileLines ⟨none, none, none⟩ c hfold
      (fun v hv => nomatch hv) (fun v hv => nomatch hv) (fun v hv => nomatch hv)
    unfold fillGW at hok
    cases hgw : c.DEFAULT_GW with
    | none =>
      rw [hgw] at hok
      cases hdet : get_default_gw netstat with
      | error e => rw [hdet] at hok; cases hok
      | ok gw =>
        rw [hdet] at hok
        cases hok
        refine ⟨hinv.1, hinv.2.1, ?_⟩
        intro v hv
        simp at hv
        exact hv ▸ get_default_gw_ok_pat netstat gw hdet
    | some g =>
      rw [hgw] at hok
      cases hok
      exact hinv

/-- Witness for C6's amended claim at a concrete configuration run. -/
theorem C6_fields_pattern_amended_witness :
    containsIPv4Pat "10.111.55.31" = true :=
  (C6_fields_pattern_amended (fun _ => none)
      ["WG_CLIENT 10.111.55.31", "WG_SERVER 2.2.2.2"]
      ["default 192.168.0.1 UGSc en0"]
      ⟨some "10.111.55.31", some "2.2.2.2", some "192.168.0.1"⟩ (by rfl)).1
    "10.111.55.31" rfl

end WgRoutes
